import Mathlib

/-!
Verification of the transaction-construction and key/address code of
CryptoCurrencyCafe/project1 (spend.go, keypair.go) against its
natural-language specification.  The Go code is shallowly embedded:
bytes are `Nat` (0..255), byte strings are `List Nat`, Go's `int64`
is `Int`, fallible operations return `Option`.  Library primitives
(SHA-256, RIPEMD-160, ECDSA, scalar multiplication) are threaded as
explicit function parameters in a `CryptoPrims` record, since the spec
mandates that they come from vetted external libraries.
-/

/-- Fixed-width big-endian bytes: the `w` bytes of `n` (mod 256^w), most
significant first.  Mirrors btcec's `paddedAppend`-style encoding. -/
def bytesBE : Nat → Nat → List Nat
  | 0, _ => []
  | w+1, n => (n / 256 ^ w % 256) :: bytesBE w n

/-- Fixed-width little-endian bytes: the `w` bytes of `n` (mod 256^w),
least significant first. -/
def bytesLE : Nat → Nat → List Nat
  | 0, _ => []
  | w+1, n => (n % 256) :: bytesLE w (n / 256)

/-- Four-byte little-endian encoding (Go `binary.LittleEndian.PutUint32`). -/
def uint32LE (n : Nat) : List Nat := bytesLE 4 n

/-- Eight-byte little-endian encoding (Go `binary.LittleEndian.PutUint64`). -/
def uint64LE (n : Nat) : List Nat := bytesLE 8 n

/-- Bitcoin wire variable-length integer (btcwire `writeVarInt`). -/
def varInt (n : Nat) : List Nat :=
  if n < 0xfd then [n]
  else if n ≤ 0xffff then 0xfd :: bytesLE 2 n
  else if n ≤ 0xffffffff then 0xfe :: bytesLE 4 n
  else 0xff :: bytesLE 8 n

/-- Value of a single hex digit, `none` on a non-hex character
(Go `encoding/hex` InvalidByteError). -/
def hexDigit (c : Char) : Option Nat :=
  if '0' ≤ c ∧ c ≤ '9' then some (c.toNat - '0'.toNat)
  else if 'a' ≤ c ∧ c ≤ 'f' then some (c.toNat - 'a'.toNat + 10)
  else if 'A' ≤ c ∧ c ≤ 'F' then some (c.toNat - 'A'.toNat + 10)
  else none

/-- Decode a list of hex characters two at a time; `none` on an odd
length (Go `hex.ErrLength`) or an invalid digit. -/
def hexDecodeChars : List Char → Option (List Nat)
  | [] => some []
  | [_] => none
  | c1 :: c2 :: rest => do
    let hi ← hexDigit c1
    let lo ← hexDigit c2
    let tail ← hexDecodeChars rest
    some ((hi * 16 + lo) :: tail)

/-- Go `hex.DecodeString`: bytes of a hex string, `none` on malformed input. -/
def hexDecode (s : String) : Option (List Nat) := hexDecodeChars s.toList

/-- Big-endian interpretation of a byte string as a natural number
(Go `new(big.Int).SetBytes`). -/
def beToNat (bs : List Nat) : Nat := bs.foldl (fun acc b => acc * 256 + b) 0

/-! ## Data model (btcwire / btcec / btcutil types used by the program) -/

/-- btcwire.OutPoint: reference to a previous transaction output.
The `hash` is the 32-byte transaction hash in internal (reversed) byte
order, exactly as btcwire stores it. -/
structure OutPoint where
  hash : List Nat
  index : Nat
  deriving Repr, DecidableEq

/-- btcwire.TxIn. -/
structure TxIn where
  previousOutPoint : OutPoint
  signatureScript : List Nat
  sequence : Nat
  deriving Repr, DecidableEq

/-- btcwire.TxOut.  `value` is Go `int64`, so it may be negative. -/
structure TxOut where
  value : Int
  pkScript : List Nat
  deriving Repr, DecidableEq

/-- btcwire.MsgTx. -/
structure MsgTx where
  version : Int
  txIn : List TxIn
  txOut : List TxOut
  lockTime : Nat
  deriving Repr, DecidableEq

/-- btcutil.AddressPubKeyHash: the 20-byte hash160 plus the network
version byte fixed by the network parameters. -/
structure Address where
  hash160 : List Nat
  netID : Nat
  deriving Repr, DecidableEq

/-- btcec.PrivateKey: the secret scalar (big-endian interpretation of
the supplied bytes; btcec performs no length or range check). -/
structure PrivKeyT where
  d : Nat
  deriving Repr, DecidableEq

/-- btcec.PublicKey: an affine curve point. -/
structure PubKey where
  x : Nat
  y : Nat
  deriving Repr, DecidableEq

/-- External cryptographic primitives supplied by vetted libraries
(spec section 9): hash functions, DER-encoded ECDSA signing, and
scalar multiplication of the secp256k1 generator. -/
structure CryptoPrims where
  sha256 : List Nat → List Nat
  ripemd160 : List Nat → List Nat
  ecdsaSignDER : Nat → List Nat → List Nat
  pubKeyOf : Nat → PubKey

/-! ## btcwire constructors and serialization -/

/-- btcwire.MaxTxInSequenceNum. -/
def MaxTxInSequenceNum : Nat := 0xffffffff

/-- btcwire.NewTxIn: builds a TxIn with the default (maximal) sequence. -/
def NewTxIn (prevOut : OutPoint) (signatureScript : List Nat) : TxIn :=
  { previousOutPoint := prevOut, signatureScript := signatureScript,
    sequence := MaxTxInSequenceNum }

/-- btcwire.NewTxOut. -/
def NewTxOut (value : Int) (pkScript : List Nat) : TxOut :=
  { value := value, pkScript := pkScript }

/-- btcwire.NewOutPoint. -/
def NewOutPoint (hash : List Nat) (index : Nat) : OutPoint :=
  { hash := hash, index := index }

/-- btcwire.NewMsgTx: version TxVersion = 1, no inputs or outputs,
lock time 0. -/
def NewMsgTx : MsgTx := { version := 1, txIn := [], txOut := [], lockTime := 0 }

/-- MsgTx.AddTxIn: appends an input. -/
def AddTxIn (tx : MsgTx) (ti : TxIn) : MsgTx :=
  { tx with txIn := tx.txIn ++ [ti] }

/-- MsgTx.AddTxOut: appends an output. -/
def AddTxOut (tx : MsgTx) (txo : TxOut) : MsgTx :=
  { tx with txOut := tx.txOut ++ [txo] }

/-- btcwire.NewShaHashFromStr: rejects strings longer than 64 hex
characters, left-pads an odd-length string with one `0`, hex-decodes,
reverses the bytes into internal little-endian order and zero-pads to
32 bytes.  Returns `none` exactly where the Go function returns a
non-nil error (with a nil hash). -/
def newShaHashFromStr (s : String) : Option (List Nat) :=
  if s.length > 64 then none
  else
    let s2 := if s.length % 2 = 1 then "0" ++ s else s
    (hexDecode s2).map (fun buf => buf.reverse ++ List.replicate (32 - buf.length) 0)

/-- Wire serialization of one input: outpoint hash (internal order),
4-byte LE index, length-prefixed signature script, 4-byte LE sequence. -/
def serializeTxIn (ti : TxIn) : List Nat :=
  ti.previousOutPoint.hash ++ uint32LE ti.previousOutPoint.index ++
    varInt ti.signatureScript.length ++ ti.signatureScript ++ uint32LE ti.sequence

/-- Wire serialization of one output: 8-byte LE two's-complement value,
length-prefixed locking script. -/
def serializeTxOut (txo : TxOut) : List Nat :=
  uint64LE ((txo.value % (2 ^ 64 : Int)).toNat) ++ varInt txo.pkScript.length ++ txo.pkScript

/-- MsgTx.Serialize: canonical wire layout — 4-byte LE version, input
count, inputs, output count, outputs, 4-byte LE lock time. -/
def serializeTx (tx : MsgTx) : List Nat :=
  uint32LE ((tx.version % (2 ^ 32 : Int)).toNat) ++
    varInt tx.txIn.length ++ (tx.txIn.map serializeTxIn).flatten ++
    varInt tx.txOut.length ++ (tx.txOut.map serializeTxOut).flatten ++
    uint32LE tx.lockTime

/-! ## Script engine (btcscript, modelled from the spec where the
library source is outside this repository) -/

/-- Script opcodes used by the pay-to-pubkey-hash pattern. -/
def OP_DUP : Nat := 0x76
/-- OP_HASH160 opcode. -/
def OP_HASH160 : Nat := 0xa9
/-- OP_EQUALVERIFY opcode. -/
def OP_EQUALVERIFY : Nat := 0x88
/-- OP_CHECKSIG opcode. -/
def OP_CHECKSIG : Nat := 0xac

/-- btcscript.SigHashAll: the "sign everything" signature-hash type. -/
def SigHashAll : Nat := 1

/-- Minimal-push encoding for a payload under 76 bytes: one length
byte followed by the raw bytes (spec section 4.3 script grammar). -/
def dataPush (b : List Nat) : List Nat := b.length :: b

/-- Modelled from the spec: btcscript.PayToAddrScript (library code not
under src/) builds the standard pay-to-pubkey-hash locking script:
DUP, HASH160, PUSH(hash160), EQUALVERIFY, CHECKSIG. -/
def payToAddrScript (addr : Address) : List Nat :=
  [OP_DUP, OP_HASH160] ++ dataPush addr.hash160 ++ [OP_EQUALVERIFY, OP_CHECKSIG]

/-- Modelled from the spec: the unlocking-script builder inside
btcscript.SignatureScript (library code not under src/): the
concatenation of a length-prefixed signature-with-sighash-byte and a
length-prefixed compressed public key. -/
def signatureScript (sig pubCompressed : List Nat) : List Nat :=
  dataPush (sig ++ [SigHashAll]) ++ dataPush pubCompressed

/-- btcec.PublicKey.SerializeCompressed: parity byte (0x02 even y,
0x03 odd y) followed by the 32-byte big-endian x coordinate. -/
def serializeCompressed (p : PubKey) : List Nat :=
  (if p.y % 2 = 1 then 0x03 else 0x02) :: bytesBE 32 p.x

/-- Replace the signature script of input `idx` with `subscript` and
blank the signature scripts of all other inputs, counting from `i`. -/
def blankOtherInputs (idx : Nat) (subscript : List Nat) : Nat → List TxIn → List TxIn
  | _, [] => []
  | i, ti :: rest =>
      { ti with signatureScript := if i = idx then subscript else [] } ::
        blankOtherInputs idx subscript (i + 1) rest

/-- Modelled from the spec: btcscript's signature-hash computation
(library code not under src/): serialize a copy of the transaction in
which the target input's unlocking script is replaced by the funding
output's locking script and every other input's unlocking script is
emptied (SigHashAll keeps all outputs), append the sighash type as a
4-byte little-endian suffix, and double-SHA-256 the result. -/
def computeSignatureHash (sha256 : List Nat → List Nat) (tx : MsgTx) (idx : Nat)
    (subscript : List Nat) (hashType : Nat) : List Nat :=
  let txCopy := { tx with txIn := blankOtherInputs idx subscript 0 tx.txIn }
  sha256 (sha256 (serializeTx txCopy ++ uint32LE hashType))

/-! ## spend.go -/

/-- spend.go createTxIn: a TxIn referencing the funding outpoint with
an empty signature script. -/
def createTxIn (outpoint : OutPoint) : TxIn := NewTxIn outpoint []

/-- spend.go createTxOut: subtracts the hard-coded 10,000 satoshi fee
from the input value and locks the output to the destination address.
The Go code performs no check that the result is positive. -/
def createTxOut (inCoin : Int) (addr : Address) : TxOut :=
  NewTxOut (inCoin - 10000) (payToAddrScript addr)

/-- spend.go generateSig: btcscript.SignatureScript over input 0 of
`tx` with SigHashAll — sign the signature hash with the private key,
DER-encode, append the sighash byte, and append the length-prefixed
compressed public key. -/
def generateSig (C : CryptoPrims) (tx : MsgTx) (privkey : PrivKeyT)
    (scriptPubKey : List Nat) : List Nat :=
  let digest := computeSignatureHash C.sha256 tx 0 scriptPubKey SigHashAll
  signatureScript (C.ecdsaSignDER privkey.d digest)
    (serializeCompressed (C.pubKeyOf privkey.d))

/-- Write `sig` into `tx.TxIn[0].SignatureScript` (the single mutation
main performs after signing). -/
def setSigScript0 (tx : MsgTx) (sig : List Nat) : MsgTx :=
  { tx with txIn := match tx.txIn with
      | [] => []
      | ti :: rest => { ti with signatureScript := sig } :: rest }

/-- The unsigned transaction main assembles before signing: NewMsgTx,
AddTxIn (createTxIn outpoint), AddTxOut (createTxOut value addr). -/
def buildUnsigned (outpoint : OutPoint) (fundingValue : Int) (addr : Address) : MsgTx :=
  let tx := NewMsgTx
  let tx := AddTxIn tx (createTxIn outpoint)
  let tx := AddTxOut tx (createTxOut fundingValue addr)
  tx

/-- The signed transaction main produces: build the unsigned
transaction, generate the signature over it, then write the signature
script into input 0. -/
def buildSigned (C : CryptoPrims) (outpoint : OutPoint) (fundingValue : Int)
    (addr : Address) (privkey : PrivKeyT) (subscript : List Nat) : MsgTx :=
  let tx := buildUnsigned outpoint fundingValue addr
  let sig := generateSig C tx privkey subscript
  setSigScript0 tx sig

/-! ## getArgs and the funding-transaction lookup (spend.go) -/

/-- spend.go requiredArgs.  `txid` is an `Option` because the Go field
is a pointer that getArgs leaves nil when `btcwire.NewShaHashFromStr`
fails (the error is never inspected). -/
structure requiredArgs where
  txid : Option (List Nat)
  vout : Nat
  toAddress : Address
  privKey : PrivKeyT

/-- btcec.PrivKeyFromBytes: interprets the supplied bytes, whatever
their length, as a big-endian scalar.  The Go function has no error
result and performs no length or range check. -/
def privKeyFromBytes (pk : List Nat) : PrivKeyT := { d := beToNat pk }

/-- The private-key parsing performed by getArgs: hex-decode the
command-line string (log.Fatal, i.e. `none`, on malformed hex) and
hand the bytes to btcec.PrivKeyFromBytes. -/
def parsePrivKeyArg (k : String) : Option PrivKeyT :=
  (hexDecode k).map privKeyFromBytes

/-- spend.go getArgs.  `decodeAddress` stands for the external
btcutil.DecodeAddress collaborator.  `none` models both the usage
message + os.Exit path (an empty flag or `vout = -1`) and the
log.Fatal paths (bad hex key, bad address).  The txid conversion error
is discarded: the result is stored as-is, `none` included, and the
unsigned 32-bit `vout` is Go's wrapping conversion of the signed flag
value. -/
def getArgs (decodeAddress : String → Option Address)
    (a k t : String) (v : Int) : Option requiredArgs :=
  if a = "" ∨ k = "" ∨ t = "" ∨ v = -1 then none
  else do
    let privKey ← parsePrivKeyArg k
    let addr ← decodeAddress a
    let txid := newShaHashFromStr t
    some { txid := txid, vout := (v % (2 ^ 32 : Int)).toNat,
           toAddress := addr, privKey := privKey }

/-- blockchain.info response: one funding output (value and hex-encoded
locking script). -/
structure BlockChainInfoTxOut where
  value : Int
  scriptHex : String

/-- blockchain.info response: version, the transaction's own hash, and
its output list. -/
structure BlockChainInfoTx where
  ver : Int
  hash : String
  outputs : List BlockChainInfoTxOut

/-- spend.go getFundingParams: reads `rawtx.Outputs[vout]` (a Go slice
access, so `none` here models an out-of-bounds PANIC, not a validated
error), parses the hash the RESPONSE carries — it is never compared
with the txid the user requested — and assembles the spent TxOut and
the outpoint from those response fields. -/
def getFundingParams (rawtx : BlockChainInfoTx) (vout : Nat) :
    Option (TxOut × OutPoint) := do
  let blkChnTxOut ← rawtx.outputs[vout]?
  let hash ← newShaHashFromStr rawtx.hash
  let subscript ← hexDecode blkChnTxOut.scriptHex
  let outpoint := NewOutPoint hash vout
  some (NewTxOut blkChnTxOut.value subscript, outpoint)

/-- The check lookupTxid applies to the response before handing it to
getFundingParams: only `Ver = 1` is verified; the response hash is not
compared against the requested txid. -/
def lookupCheck (rawtx : BlockChainInfoTx) : Option BlockChainInfoTx :=
  if rawtx.ver = 1 then some rawtx else none

/-- spend.go main, after argument parsing, with the HTTP response
supplied as `rawtx`: validate the response as lookupTxid does, pull
the funding parameters, build the one-input one-output transaction,
sign it, and write the signature script into input 0. -/
def mainCore (C : CryptoPrims) (args : requiredArgs)
    (rawtx : BlockChainInfoTx) : Option MsgTx := do
  let rawtx ← lookupCheck rawtx
  let (oldTxOut, outpoint) ← getFundingParams rawtx args.vout
  some (buildSigned C outpoint oldTxOut.value args.toAddress args.privKey oldTxOut.pkScript)

/-! ## keypair.go and the address codec -/

/-- btcutil.Hash160: RIPEMD-160 of the SHA-256 of the input. -/
def Hash160 (C : CryptoPrims) (b : List Nat) : List Nat :=
  C.ripemd160 (C.sha256 b)

/-- The base58 alphabet used for addresses. -/
def base58Alphabet : List Char :=
  "123456789ABCDEFGHJKLMNPQRSTUVWXYZabcdefghijkmnopqrstuvwxyz".toList

/-- Base58 digits of `n`, least significant first. -/
def base58Digits : Nat → List Nat
  | 0 => []
  | n + 1 => ((n + 1) % 58) :: base58Digits ((n + 1) / 58)
decreasing_by exact Nat.div_lt_self (Nat.succ_pos n) (by decide)

/-- Base58 encoding of a byte string: leading zero bytes become `1`
characters, the rest is the base-58 numeral of the big-endian value. -/
def base58Encode (b : List Nat) : String :=
  let zeros := (b.takeWhile (fun x => x = 0)).length
  let digits := (base58Digits (beToNat b)).reverse
  String.mk (List.replicate zeros '1' ++
    digits.map (fun d => base58Alphabet.getD d '?'))

/-- The PubKeyHashAddrID version byte of btcnet.MainNetParams. -/
def mainNetAddrID : Nat := 0x00

/-- Modelled from the spec: the base58-check encoding performed inside
btcutil.NewAddressPubKeyHash / Address.String (library code not under
src/): prefix the network version byte, append the first 4 bytes of
the double SHA-256 of the prefixed payload as checksum, base58-encode. -/
def addressString (C : CryptoPrims) (netID : Nat) (h160 : List Nat) : String :=
  let payload := netID :: h160
  base58Encode (payload ++ (C.sha256 (C.sha256 payload)).take 4)

/-- keypair.go generateAddr: Hash160 of the compressed public key, fed
to btcutil.NewAddressPubKeyHash on the main network, rendered with
Address.String. -/
def generateAddr (C : CryptoPrims) (pub : PubKey) : String :=
  addressString C mainNetAddrID (Hash160 C (serializeCompressed pub))

/-! ## Spec-side definitions (for refinement comparisons) -/

/-- The address-derivation pipeline exactly as the spec words it:
"serializes the public key in compressed form (33 bytes: parity byte +
x-coordinate), applies SHA-256 then RIPEMD-160, prefixes a network
version byte, appends a 4-byte checksum (double-SHA-256 of the
prefixed payload, first 4 bytes), base58-encodes the result". -/
def deriveAddressSpec (C : CryptoPrims) (pub : PubKey) (versionByte : Nat) : String :=
  let compressed := serializeCompressed pub
  let h := C.ripemd160 (C.sha256 compressed)
  let prefixed := versionByte :: h
  let checksum := (C.sha256 (C.sha256 prefixed)).take 4
  base58Encode (prefixed ++ checksum)

/-- Read one minimal data push from a script: a length byte under 76
followed by that many payload bytes; returns the payload and the rest. -/
def readPush : List Nat → Option (List Nat × List Nat)
  | [] => none
  | n :: rest =>
      if n < 76 ∧ n ≤ rest.length then some (rest.take n, rest.drop n) else none

/-- Parse a script that consists of exactly two minimal data pushes. -/
def parseTwoPushes (s : List Nat) : Option (List Nat × List Nat) := do
  let (a, r1) ← readPush s
  let (b, r2) ← readPush r1
  if r2 = [] then some (a, b) else none

/-! ## Concrete fixtures used by closed theorems and witnesses -/

/-- Concrete 20-byte address hash for evaluation. -/
def addr0 : Address := { hash160 := List.replicate 20 0x11, netID := 0 }

/-- Concrete instantiation of the external cryptographic primitives,
used only to evaluate the embedding on closed inputs. -/
def C0 : CryptoPrims :=
  { sha256 := fun b => List.replicate 32 (b.length % 256)
    ripemd160 := fun b => List.replicate 20 (b.length % 256)
    ecdsaSignDER := fun _ _ => [0x30, 0x06, 0x02, 0x01, 0x01, 0x02, 0x01, 0x01]
    pubKeyOf := fun d => { x := d, y := d } }

/-- Internal-order hash obtained from the hex string "01". -/
def h01 : List Nat := 1 :: List.replicate 31 0

/-- Concrete outpoint for evaluation. -/
def outpoint0 : OutPoint := NewOutPoint h01 0

/-- Concrete unsigned transaction for evaluation. -/
def txW : MsgTx := buildUnsigned outpoint0 50000 addr0

/-- Funding-lookup response whose own hash ("01") differs from the
txid the user requested ("02"), with a single output. -/
def rawtx0 : BlockChainInfoTx :=
  { ver := 1, hash := "01",
    outputs := [{ value := 50000, scriptHex := "51" }] }

/-- Parsed arguments requesting txid "02". -/
def args0 : requiredArgs :=
  { txid := newShaHashFromStr "02", vout := 0, toAddress := addr0,
    privKey := { d := 1 } }

/-! ## Helper lemmas -/

theorem bytesBE_length (w n : Nat) : (bytesBE w n).length = w := by
  induction w generalizing n with
  | zero => rfl
  | succ w ih => simp [bytesBE, ih]

theorem serializeCompressed_length (p : PubKey) :
    (serializeCompressed p).length = 33 := by
  simp [serializeCompressed, bytesBE_length]

theorem readPush_push (a r : List Nat) (h : a.length < 76) :
    readPush (a.length :: (a ++ r)) = some (a, r) := by
  simp [readPush, h, List.take_left, List.drop_left]

theorem readPush_exact (a : List Nat) (h : a.length < 76) :
    readPush (a.length :: a) = some (a, []) := by
  have := readPush_push a [] h
  simpa using this

theorem parse_signatureScript (sig pub : List Nat)
    (hs : sig.length < 75) (hp : pub.length < 76) :
    parseTwoPushes (signatureScript sig pub) = some (sig ++ [SigHashAll], pub) := by
  have h1 : (sig ++ [SigHashAll]).length < 76 := by
    simp [List.length_append]
    omega
  have e : signatureScript sig pub =
      (sig ++ [SigHashAll]).length :: ((sig ++ [SigHashAll]) ++ (pub.length :: pub)) := by
    simp [signatureScript, dataPush]
  rw [parseTwoPushes, e, readPush_push _ _ h1]
  simp [readPush_exact pub hp]

/-- Order of the secp256k1 group (the valid private-key range is
1 to secpOrder - 1). -/
def secpOrder : Nat :=
  0xFFFFFFFFFFFFFFFFFFFFFFFFFFFFFFFEBAAEDCE6AF48A03BBFD25E8CD0364141

/-! ## Claim theorems -/

/-- Claim C1, code evaluated at the failing input: with funding value
equal to the 10,000 fee, createTxOut does not fail with
InsufficientFunds — it unconditionally returns a TxOut, of value 0
here and of negative value for any smaller funding value. -/
theorem createTxOut_silently_nonpositive :
    createTxOut 10000 addr0 = NewTxOut 0 (payToAddrScript addr0) ∧
    (createTxOut 10000 addr0).value = 0 ∧
    (createTxOut 9999 addr0).value = -1 := by
  refine ⟨?_, ?_, ?_⟩ <;> decide

/-- Claim C2, code evaluated at the failing input: when the lookup
response carries hash "01" while the user requested txid "02", the
pipeline proceeds and builds the outpoint from the response hash, with
no comparison against the requested id; and the output-index access in
getFundingParams is reached with no prior bounds validation (index 1
on a single-output response hits the unchecked slice access). -/
theorem mainCore_proceeds_on_hash_mismatch :
    args0.txid = some (2 :: List.replicate 31 0) ∧
    (mainCore C0 args0 rawtx0).map
        (fun tx => tx.txIn.map fun ti => ti.previousOutPoint.hash) = some [h01] ∧
    some h01 ≠ args0.txid ∧
    getFundingParams rawtx0 1 = none := by
  refine ⟨?_, ?_, ?_, ?_⟩ <;> decide

/-- Claim C3: the transaction main assembles has exactly one input,
referencing the funding outpoint with an empty unlocking script and
the default sequence, and exactly one output whose value is the
funding value minus the 10,000 fee and whose locking script is
payToAddrScript of the destination; with funding value 50,000 the
output value is exactly 40,000. -/
theorem buildTransaction_structure (outpoint : OutPoint) (fundingValue : Int)
    (addr : Address) :
    (buildUnsigned outpoint fundingValue addr).txIn =
      [{ previousOutPoint := outpoint, signatureScript := [],
         sequence := MaxTxInSequenceNum }] ∧
    (buildUnsigned outpoint fundingValue addr).txOut =
      [{ value := fundingValue - 10000, pkScript := payToAddrScript addr }] ∧
    (buildUnsigned outpoint 50000 addr).txOut.map TxOut.value = [40000] := by
  refine ⟨rfl, rfl, ?_⟩
  simp [buildUnsigned, AddTxOut, AddTxIn, NewMsgTx, createTxOut, NewTxOut]

/-- Claim C4: the unlocking script produced by signing parses as
exactly two minimal data pushes — the DER signature with the trailing
SigHashAll byte, then the compressed public key derived from the
signing private key. -/
theorem generateSig_unlocking_script_structure (C : CryptoPrims) (tx : MsgTx)
    (privkey : PrivKeyT) (subscript : List Nat)
    (h : (C.ecdsaSignDER privkey.d
        (computeSignatureHash C.sha256 tx 0 subscript SigHashAll)).length < 75) :
    parseTwoPushes (generateSig C tx privkey subscript) =
      some (C.ecdsaSignDER privkey.d
            (computeSignatureHash C.sha256 tx 0 subscript SigHashAll) ++ [SigHashAll],
          serializeCompressed (C.pubKeyOf privkey.d)) := by
  have hp : (serializeCompressed (C.pubKeyOf privkey.d)).length < 76 := by
    rw [serializeCompressed_length]
    omega
  exact parse_signatureScript _ _ h hp

/-- Witness for claim C4 at concrete inputs. -/
theorem generateSig_unlocking_script_structure_witness :
    (C0.ecdsaSignDER (1 : Nat)
        (computeSignatureHash C0.sha256 txW 0 [0x51] SigHashAll)).length < 75 ∧
    parseTwoPushes (generateSig C0 txW { d := 1 } [0x51]) =
      some (C0.ecdsaSignDER 1
            (computeSignatureHash C0.sha256 txW 0 [0x51] SigHashAll) ++ [SigHashAll],
          serializeCompressed (C0.pubKeyOf 1)) :=
  ⟨by decide,
   generateSig_unlocking_script_structure C0 txW { d := 1 } [0x51] (by decide)⟩

/-- Claim C5: in the unsigned transaction every input's unlocking
script is empty; the signed transaction agrees with the unsigned one
on version, lock time, outputs, and every input's outpoint and
sequence; and the only change is that input 0's unlocking script now
holds the signature that was generated over the unsigned transaction
itself — signing is the terminal mutation. -/
theorem signing_is_terminal_mutation (C : CryptoPrims) (outpoint : OutPoint)
    (fundingValue : Int) (addr : Address) (privkey : PrivKeyT) (subscript : List Nat) :
    (buildUnsigned outpoint fundingValue addr).txIn.map TxIn.signatureScript = [[]] ∧
    (buildSigned C outpoint fundingValue addr privkey subscript).version =
      (buildUnsigned outpoint fundingValue addr).version ∧
    (buildSigned C outpoint fundingValue addr privkey subscript).lockTime =
      (buildUnsigned outpoint fundingValue addr).lockTime ∧
    (buildSigned C outpoint fundingValue addr privkey subscript).txOut =
      (buildUnsigned outpoint fundingValue addr).txOut ∧
    (buildSigned C outpoint fundingValue addr privkey subscript).txIn.map
        TxIn.previousOutPoint =
      (buildUnsigned outpoint fundingValue addr).txIn.map TxIn.previousOutPoint ∧
    (buildSigned C outpoint fundingValue addr privkey subscript).txIn.map
        TxIn.sequence =
      (buildUnsigned outpoint fundingValue addr).txIn.map TxIn.sequence ∧
    (buildSigned C outpoint fundingValue addr privkey subscript).txIn.map
        TxIn.signatureScript =
      [generateSig C (buildUnsigned outpoint fundingValue addr) privkey subscript] :=
  ⟨rfl, rfl, rfl, rfl, rfl, rfl, rfl⟩

/-- Claim C6 counterexample: the claim that key parsing rejects a
wrong-length or out-of-range scalar is false — the one-byte key "01"
decodes to length 1 and is accepted. -/
theorem parsePrivKeyArg_no_length_or_range_check :
    ¬ (∀ (s : String) (bytes : List Nat), hexDecode s = some bytes →
        (bytes.length ≠ 32 ∨ beToNat bytes = 0 ∨ secpOrder ≤ beToNat bytes) →
        parsePrivKeyArg s = none) := by
  intro hclaim
  have h3 := hclaim "01" [1] (by decide) (Or.inl (by decide))
  have h2 : parsePrivKeyArg "01" = some { d := 1 } := by decide
  rw [h2] at h3
  exact Option.noConfusion h3

/-- Claim C6 amended: private-key parsing fails exactly when the hex
string is malformed; any successfully decoded byte string — of any
length, and any scalar value it denotes — is accepted unchecked. -/
theorem parsePrivKeyArg_fails_only_on_malformed_hex (k : String) :
    (parsePrivKeyArg k = none ↔ hexDecode k = none) ∧
    (∀ bytes, hexDecode k = some bytes →
      parsePrivKeyArg k = some (privKeyFromBytes bytes)) := by
  constructor
  · unfold parsePrivKeyArg
    cases hexDecode k <;> simp
  · intro bytes hb
    unfold parsePrivKeyArg
    rw [hb]
    rfl

/-- Witness for the amended claim C6 at the concrete key "0a". -/
theorem parsePrivKeyArg_fails_only_on_malformed_hex_witness :
    (parsePrivKeyArg "0a" = none ↔ hexDecode "0a" = none) ∧
    parsePrivKeyArg "0a" = some (privKeyFromBytes [10]) :=
  ⟨(parsePrivKeyArg_fails_only_on_malformed_hex "0a").1,
   (parsePrivKeyArg_fails_only_on_malformed_hex "0a").2 [10] (by decide)⟩

/-- Claim C7: the compressed serialization used for address derivation
is 33 bytes, and generateAddr (keypair.go plus the btcutil encoding)
coincides with the spec's pipeline — SHA-256 then RIPEMD-160 of the
compressed key, version byte prefix, 4-byte double-SHA-256 checksum,
base58 — at the main-network version byte. -/
theorem generateAddr_matches_spec_pipeline (C : CryptoPrims) (pub : PubKey) :
    (serializeCompressed pub).length = 33 ∧
    generateAddr C pub = deriveAddressSpec C pub mainNetAddrID :=
  ⟨serializeCompressed_length pub, rfl⟩

/-- Claim C8: computeSignatureHash is a deterministic function of its
four arguments — two runs on equal inputs yield equal digests; the
embedding takes no randomness or ambient state. -/
theorem computeSignatureHash_deterministic (sha : List Nat → List Nat)
    (tx1 tx2 : MsgTx) (idx1 idx2 : Nat) (sub1 sub2 : List Nat) (ht1 ht2 : Nat)
    (htx : tx1 = tx2) (hidx : idx1 = idx2) (hsub : sub1 = sub2) (hht : ht1 = ht2) :
    computeSignatureHash sha tx1 idx1 sub1 ht1 =
      computeSignatureHash sha tx2 idx2 sub2 ht2 := by
  subst htx
  subst hidx
  subst hsub
  subst hht
  rfl

/-- Witness for claim C8 at concrete inputs. -/
theorem computeSignatureHash_deterministic_witness :
    computeSignatureHash (fun b => b) txW 0 [0x51] 1 =
      computeSignatureHash (fun b => b) txW 0 [0x51] 1 :=
  computeSignatureHash_deterministic (fun b => b) txW txW 0 0 [0x51] [0x51] 1 1
    rfl rfl rfl rfl

/-- Claim C9: getArgs never fails because of the txid string — when
the flag check and the key and address parses pass, it returns
successfully and stores exactly what newShaHashFromStr produced, the
`none` of a failed conversion included. -/
theorem getArgs_ignores_txid_error (dec : String → Option Address)
    (a k t : String) (v : Int) (pk : PrivKeyT) (addr : Address)
    (ha : a ≠ "") (hk : k ≠ "") (ht : t ≠ "") (hv : v ≠ -1)
    (hpk : parsePrivKeyArg k = some pk) (haddr : dec a = some addr) :
    getArgs dec a k t v =
      some { txid := newShaHashFromStr t, vout := (v % (2 ^ 32 : Int)).toNat,
             toAddress := addr, privKey := pk } := by
  simp [getArgs, ha, hk, ht, hv, hpk, haddr]

/-- Witness for claim C9: "zz" is not valid hex, newShaHashFromStr
rejects it, yet getArgs succeeds with a `none` txid. -/
theorem getArgs_ignores_txid_error_witness :
    newShaHashFromStr "zz" = none ∧
    getArgs (fun _ => some addr0) "x" "0b" "zz" 0 =
      some { txid := newShaHashFromStr "zz",
             vout := ((0 : Int) % (2 ^ 32 : Int)).toNat,
             toAddress := addr0, privKey := { d := 11 } } :=
  ⟨by decide,
   getArgs_ignores_txid_error (fun _ => some addr0) "x" "0b" "zz" 0 { d := 11 } addr0
     (by decide) (by decide) (by decide) (by decide) (by decide) rfl⟩

/-- Claim C10: every vout other than exactly -1 passes the argument
check, and the resulting index is the wrapping conversion of the
signed flag value to an unsigned 32-bit integer. -/
theorem getArgs_wraps_negative_vout (dec : String → Option Address)
    (a k t : String) (v : Int) (pk : PrivKeyT) (addr : Address)
    (ha : a ≠ "") (hk : k ≠ "") (ht : t ≠ "") (hv : v ≠ -1)
    (hpk : parsePrivKeyArg k = some pk) (haddr : dec a = some addr) :
    (getArgs dec a k t v).map requiredArgs.vout =
      some ((v % (2 ^ 32 : Int)).toNat) := by
  simp [getArgs, ha, hk, ht, hv, hpk, haddr]

/-- Witness for claim C10: vout -2 is accepted and becomes the huge
index 4294967294. -/
theorem getArgs_wraps_negative_vout_witness :
    ((-2 : Int) % (2 ^ 32 : Int)).toNat = 4294967294 ∧
    (getArgs (fun _ => some addr0) "x" "0c" "ab" (-2)).map requiredArgs.vout =
      some (((-2 : Int) % (2 ^ 32 : Int)).toNat) :=
  ⟨by decide,
   getArgs_wraps_negative_vout (fun _ => some addr0) "x" "0c" "ab" (-2) { d := 12 } addr0
     (by decide) (by decide) (by decide) (by decide) (by decide) rfl⟩
